import Mathlib

/-
A shallow embedding of signac/core/file_buffered_synced_collection.py
(class FileBufferedCollection).

Modelling conventions:
- Python bytes blobs are modelled by their UTF-8 text (String); byte equality
  coincides with text equality, which is all the code compares.
- The collaborator contract of the underlying synced collection
  (to_base / json.dumps / json.loads / md5 hexdigest) is a parameter of the
  model, an Env record: serialize is json.dumps(self.to_base()).encode(),
  deserialize is json.loads, hashFn is the md5 hexdigest of a blob, fs is the
  filesystem visible through os.stat.
- os.stat either yields (st_size, st_mtime) or raises OSError with an errno;
  st_mtime is modelled as a natural number (its exact type does not matter to
  the logic, only equality).
- The durable-commit primitive self._sync() is modelled by recording the
  document it would write in a syncs log; the code under analysis never
  inspects its result.
-/

namespace Signac

/-- Python runtime values as they appear in the comparison on the flush path:
in FileBufferedCollection._flush the md5 hexdigest (a Python str) is compared
with the cached contents (a Python bytes object). Python equality between a
str and a bytes value is always False, which the constructor-disjointness of
this type reproduces. -/
inductive PyVal where
  | str (s : String)
  | bytes (b : String)
deriving DecidableEq

/-- errno.ENOENT, the errno that _get_file_metadata converts to None. -/
def ENOENT : Nat := 2

/-- Outcome of os.stat(path): the (st_size, st_mtime) pair, or an OSError
carrying an errno. -/
inductive StatResult where
  | ok (size : Nat) (mtime : Nat)
  | err (errno : Nat)
deriving DecidableEq

/-- One cache entry, as built in _load_buffer: the serialized contents blob,
the md5 hexdigest of the blob captured at first load, and the file metadata
(size, mtime) captured at the same moment (none when the file was absent). -/
structure CacheEntry where
  contents : String
  hash : String
  metadata : Option (Nat × Nat)
deriving DecidableEq

/-- The in-memory cache (cls._cache), keyed by filename. -/
abbrev Cache := String → Option CacheEntry

/-- A FileBufferedCollection instance: its _filename, the _is_buffered flag
supplied by the BufferedCollection collaborator, and the in-memory document
state _data (what self.to_base() serializes). -/
structure Collection (Doc : Type) where
  filename : String
  isBuffered : Bool
  data : Doc
deriving DecidableEq

/-- The collaborator contract and the filesystem, fixed for a run. -/
structure Env (Doc : Type) where
  serialize : Doc → String
  deserialize : String → Doc
  hashFn : String → String
  fs : String → StatResult

/-- cache[path] = e. -/
def cacheSet (cache : Cache) (path : String) (e : CacheEntry) : Cache :=
  fun p => if p = path then some e else cache p

/-- del cache[path]. -/
def cacheDel (cache : Cache) (path : String) : Cache :=
  fun p => if p = path then none else cache p

/-- FileBufferedCollection._get_file_metadata: os.stat, returning the
(st_size, st_mtime) pair; an OSError with errno ENOENT yields None (the
function falls off the end), any other OSError propagates. -/
def getFileMetadata (r : StatResult) : Except Nat (Option (Nat × Nat)) :=
  match r with
  | .ok size mtime => .ok (some (size, mtime))
  | .err e => if e = ENOENT then .ok none else .error e

/-- The exceptions _flush can raise and _flush_buffer catches:
MetadataError(filename), or an OSError propagated from os.stat. -/
inductive FlushError where
  | metadataError (path : String)
  | osError (errno : Nat)
deriving DecidableEq

/-- Result of one _flush call: the (possibly updated) instance, the cache,
the log of documents passed to the durable commit self._sync(), and the
exception raised, if any. -/
structure FlushOneResult (Doc : Type) where
  collection : Collection Doc
  cache : Cache
  syncs : List Doc
  error : Option FlushError

/-- FileBufferedCollection._flush (flush-one). Mirrors the source:
if the instance is still buffered, do nothing; a missing cache entry is a
silent no-op; otherwise serialize the current state, compare its md5
hexdigest (a str) with the cached contents (bytes) - the PyVal comparison -
and when they differ, probe the file metadata (propagating non-ENOENT
OSErrors), raise MetadataError(filename) on a metadata mismatch, else decode
the cached contents into _data and invoke _sync; finally delete the cache
entry (unreached on the raising paths). -/
def flushOne {Doc : Type} (env : Env Doc) (c : Collection Doc) (cache : Cache) :
    FlushOneResult Doc :=
  if c.isBuffered then
    ⟨c, cache, [], none⟩
  else
    match cache c.filename with
    | none => ⟨c, cache, [], none⟩
    | some e =>
      let blob := env.serialize c.data
      if PyVal.str (env.hashFn blob) ≠ PyVal.bytes e.contents then
        match getFileMetadata (env.fs c.filename) with
        | .error n => ⟨c, cache, [], some (.osError n)⟩
        | .ok md =>
          if e.metadata ≠ md then
            ⟨c, cache, [], some (.metadataError c.filename)⟩
          else
            let c2 : Collection Doc := ⟨c.filename, c.isBuffered, env.deserialize e.contents⟩
            ⟨c2, cacheDel cache c.filename, [c2.data], none⟩
      else
        ⟨c, cacheDel cache c.filename, [], none⟩

/-- FileBufferedCollection._sync_buffer: assert the entry exists (none models
the assertion failing), then overwrite only its contents with the freshly
serialized current state. -/
def syncBuffer {Doc : Type} (env : Env Doc) (c : Collection Doc) (cache : Cache) :
    Option Cache :=
  match cache c.filename with
  | none => none
  | some e => some (cacheSet cache c.filename ⟨env.serialize c.data, e.hash, e.metadata⟩)

/-- FileBufferedCollection._load_buffer: on a cache hit return the decoded
cached contents; on a miss serialize the current state, hash it, probe the
file metadata (propagating non-ENOENT OSErrors), insert the new entry, append
this instance to cls._cached_collections, and return the decoded blob. -/
def loadBuffer {Doc : Type} (env : Env Doc) (c : Collection Doc) (cache : Cache)
    (registry : List (Collection Doc)) :
    Except Nat (Doc × Cache × List (Collection Doc)) :=
  match cache c.filename with
  | some e => .ok (env.deserialize e.contents, cache, registry)
  | none =>
    let blob := env.serialize c.data
    let blobHash := env.hashFn blob
    match getFileMetadata (env.fs c.filename) with
    | .error n => .error n
    | .ok md =>
      .ok (env.deserialize blob,
           cacheSet cache c.filename ⟨blob, blobHash, md⟩,
           registry ++ [c])

/-- Python dict assignment issues[k] = v: replace the value if the key is
present, otherwise append at the end (insertion order preserved). -/
def dictSet (d : List (String × FlushError)) (k : String) (v : FlushError) :
    List (String × FlushError) :=
  if (d.find? (fun kv => kv.1 = k)).isSome then
    d.map (fun kv => if kv.1 = k then (k, v) else kv)
  else
    d ++ [(k, v)]

/-- The body of the while loop of _flush_buffer, processing the popped
instances in order: flush each one, recording a caught (OSError or
MetadataError) exception under the instance's filename. -/
def flushBufferAux {Doc : Type} (env : Env Doc) :
    List (Collection Doc) → Cache → List Doc → List (String × FlushError) →
    Cache × List Doc × List (String × FlushError)
  | [], cache, syncs, issues => (cache, syncs, issues)
  | c :: rest, cache, syncs, issues =>
    let r := flushOne env c cache
    let issues2 := match r.error with
      | some err => dictSet issues c.filename err
      | none => issues
    flushBufferAux env rest r.cache (syncs ++ r.syncs) issues2

/-- Result of _flush_buffer: final cache, drained registry (the while loop
pops until the list is empty), sync log, and the issues mapping returned. -/
structure FlushBufferResult (Doc : Type) where
  cache : Cache
  registry : List (Collection Doc)
  syncs : List Doc
  issues : List (String × FlushError)

/-- FileBufferedCollection._flush_buffer (flush-all): pop instances from the
end of cls._cached_collections until it is empty, flush each, catch OSError
and MetadataError per instance into the issues mapping, and return it. -/
def flushBuffer {Doc : Type} (env : Env Doc) (cache : Cache)
    (registry : List (Collection Doc)) : FlushBufferResult Doc :=
  let r := flushBufferAux env registry.reverse cache [] []
  ⟨r.1, [], r.2.1, r.2.2⟩

/-- The exception an unbuffered instance's _flush raises against a given
cache, if any: none when there is no entry or the probe metadata matches the
baseline (the hexdigest-vs-bytes comparison never skips the check), an
OSError when the probe fails with a non-ENOENT errno, and a MetadataError on
a baseline metadata mismatch. -/
def flushIssue {Doc : Type} (env : Env Doc) (cache : Cache) (c : Collection Doc) :
    Option FlushError :=
  match cache c.filename with
  | none => none
  | some e =>
    match getFileMetadata (env.fs c.filename) with
    | .error n => some (.osError n)
    | .ok md => if e.metadata = md then none else some (.metadataError c.filename)

/-! Concrete instantiations used to exercise the model. Documents are plain
strings, serialization and hashing are the identity (any deterministic
collaborator is admissible), and the filesystem has two existing files. -/

/-- A concrete environment: documents are strings, serialize and hashFn are
identities, the filesystem holds a.json (size 3, mtime 3) and b.json
(size 5, mtime 5) and nothing else. -/
def envW : Env String :=
  ⟨fun s => s, fun s => s, fun s => s,
   fun p => if p = "a.json" then .ok 3 3 else if p = "b.json" then .ok 5 5 else .err ENOENT⟩

/-- The empty cache. -/
def cacheEmptyW : Cache := fun _ => none

/-- An instance on a.json still inside a buffered scope. -/
def cBufW : Collection String := ⟨"a.json", true, "d1"⟩

/-- An unbuffered instance on a.json whose document was mutated to d2. -/
def cConfW : Collection String := ⟨"a.json", false, "d2"⟩

/-- A baseline entry for a.json whose metadata (9, 9) no longer matches the
file, modelling an external modification during buffering. -/
def eStaleW : CacheEntry := ⟨"d9", "stale", some (9, 9)⟩

/-- Cache holding only the stale a.json entry. -/
def cacheConfW : Cache := cacheSet cacheEmptyW "a.json" eStaleW

/-- An instance on c.json, a path with no cache entry. -/
def cMissW : Collection String := ⟨"c.json", true, "d3"⟩

/-- A baseline entry for a.json as _load_buffer would create it for document
d1: contents d1, hash d1 (identity hashFn), metadata (3, 3) matching the
file. -/
def eCleanW : CacheEntry := ⟨"d1", "d1", some (3, 3)⟩

/-- An unbuffered instance on a.json whose document is still d1, the value
recorded at load time (no intervening mutation). -/
def cFlushW : Collection String := ⟨"a.json", false, "d1"⟩

/-- Cache holding only the clean a.json entry. -/
def cacheCleanW : Cache := cacheSet cacheEmptyW "a.json" eCleanW

/-- A buffered instance on b.json holding document d5, about to take its
baseline snapshot. -/
def cLoadW : Collection String := ⟨"b.json", true, "d5"⟩

/-- The same instance once buffering has ended, document still d5. -/
def cFlush2W : Collection String := ⟨"b.json", false, "d5"⟩

/-- The cache _load_buffer builds from cLoadW on the empty cache. -/
def cacheAfterLoadW : Cache := cacheSet cacheEmptyW "b.json" ⟨"d5", "d5", some (5, 5)⟩

/-- An unbuffered instance on b.json wanting to write d7. -/
def cConfBW : Collection String := ⟨"b.json", false, "d7"⟩

/-- A baseline entry for b.json whose metadata (9, 9) no longer matches the
file (5, 5). -/
def eStaleBW : CacheEntry := ⟨"d6", "d6", some (9, 9)⟩

/-- Cache with a clean a.json entry and a stale b.json entry. -/
def cacheTwoW : Cache := cacheSet (cacheSet cacheEmptyW "a.json" eCleanW) "b.json" eStaleBW

/-! Shared lemmas about the flush path. -/

/-- If the instance is still buffered, _flush does nothing at all. -/
lemma flushOne_buffered {Doc : Type} (env : Env Doc) (c : Collection Doc)
    (cache : Cache) (hb : c.isBuffered = true) :
    flushOne env c cache = ⟨c, cache, [], none⟩ := by
  unfold flushOne
  rw [if_pos hb]

/-- A missing cache entry makes _flush a silent no-op. -/
lemma flushOne_no_entry {Doc : Type} (env : Env Doc) (c : Collection Doc)
    (cache : Cache) (hb : c.isBuffered = false)
    (he : cache c.filename = none) :
    flushOne env c cache = ⟨c, cache, [], none⟩ := by
  unfold flushOne
  rw [hb, he]
  simp only [Bool.false_eq_true, if_false]

/-- The str-vs-bytes comparison in _flush can never find the two values
equal: a Python str is never equal to a bytes object. -/
lemma pyval_str_ne_bytes (s b : String) : PyVal.str s ≠ PyVal.bytes b := by
  intro h
  cases h

/-- On the MetadataError path (not buffered, entry present, probe succeeds,
metadata mismatch) _flush raises without touching anything. -/
lemma flushOne_meta_conflict {Doc : Type} (env : Env Doc) (c : Collection Doc)
    (cache : Cache) (e : CacheEntry) (md : Option (Nat × Nat))
    (hb : c.isBuffered = false)
    (he : cache c.filename = some e)
    (hm : getFileMetadata (env.fs c.filename) = .ok md)
    (hmeta : e.metadata ≠ md) :
    flushOne env c cache = ⟨c, cache, [], some (.metadataError c.filename)⟩ := by
  unfold flushOne
  rw [hb, he]
  simp only [Bool.false_eq_true, if_false]
  rw [if_pos (pyval_str_ne_bytes _ _), hm]
  simp only [if_pos hmeta]

/-- On the write-through path (not buffered, entry present, probe succeeds,
metadata matches) _flush decodes the cached contents into _data, invokes
_sync, and deletes the entry. -/
lemma flushOne_meta_match {Doc : Type} (env : Env Doc) (c : Collection Doc)
    (cache : Cache) (e : CacheEntry) (md : Option (Nat × Nat))
    (hb : c.isBuffered = false)
    (he : cache c.filename = some e)
    (hm : getFileMetadata (env.fs c.filename) = .ok md)
    (hmeta : e.metadata = md) :
    flushOne env c cache =
      ⟨⟨c.filename, c.isBuffered, env.deserialize e.contents⟩,
       cacheDel cache c.filename, [env.deserialize e.contents], none⟩ := by
  unfold flushOne
  rw [hb, he]
  simp only [Bool.false_eq_true, if_false]
  rw [if_pos (pyval_str_ne_bytes _ _), hm]
  simp only [hmeta, ne_eq, not_true_eq_false, if_false]

/-- On the OSError path (not buffered, entry present, probe raises) _flush
propagates the error without touching anything. -/
lemma flushOne_os_error {Doc : Type} (env : Env Doc) (c : Collection Doc)
    (cache : Cache) (e : CacheEntry) (n : Nat)
    (hb : c.isBuffered = false)
    (he : cache c.filename = some e)
    (hm : getFileMetadata (env.fs c.filename) = .error n) :
    flushOne env c cache = ⟨c, cache, [], some (.osError n)⟩ := by
  unfold flushOne
  rw [hb, he]
  simp only [Bool.false_eq_true, if_false]
  rw [if_pos (pyval_str_ne_bytes _ _), hm]

/-- _flush never modifies the cache at any path other than the instance's
own filename. -/
lemma flushOne_cache_frame {Doc : Type} (env : Env Doc) (c : Collection Doc)
    (cache : Cache) (p : String) (hp : p ≠ c.filename) :
    (flushOne env c cache).cache p = cache p := by
  unfold flushOne
  split
  · rfl
  · split
    · rfl
    · rw [if_pos (pyval_str_ne_bytes _ _)]
      split
      · rfl
      · split
        · rfl
        · simp only [cacheDel, if_neg hp]

/-- flushIssue only looks at the cache entry for the instance's own
filename. -/
lemma flushIssue_congr {Doc : Type} (env : Env Doc) (cache1 cache2 : Cache)
    (c : Collection Doc) (h : cache1 c.filename = cache2 c.filename) :
    flushIssue env cache1 c = flushIssue env cache2 c := by
  unfold flushIssue
  rw [h]

/-- Deleting one key leaves every other key unchanged. -/
lemma cacheDel_ne (cache : Cache) (q p : String) (h : p ≠ q) :
    cacheDel cache q p = cache p := by
  simp [cacheDel, h]

/-- Deleting a key removes it. -/
lemma cacheDel_self (cache : Cache) (q : String) : cacheDel cache q q = none := by
  simp [cacheDel]

/-- Python dict assignment with a fresh key appends it at the end. -/
lemma dictSet_fresh (d : List (String × FlushError)) (k : String) (v : FlushError)
    (h : ∀ kv ∈ d, kv.1 ≠ k) : dictSet d k v = d ++ [(k, v)] := by
  unfold dictSet
  have hf : d.find? (fun kv => kv.1 = k) = none := by
    rw [List.find?_eq_none]
    intro x hx
    simp [h x hx]
  rw [hf]
  simp

/-- One step of the _flush_buffer loop, with the lets expanded. -/
lemma flushBufferAux_cons {Doc : Type} (env : Env Doc) (c : Collection Doc)
    (rest : List (Collection Doc)) (cache : Cache) (syncs0 : List Doc)
    (issues0 : List (String × FlushError)) :
    flushBufferAux env (c :: rest) cache syncs0 issues0 =
      flushBufferAux env rest (flushOne env c cache).cache
        (syncs0 ++ (flushOne env c cache).syncs)
        (match (flushOne env c cache).error with
         | some err => dictSet issues0 c.filename err
         | none => issues0) := rfl

/-- Drain specification for the _flush_buffer loop: with pairwise-distinct
filenames and every instance unbuffered, the loop appends one issue per
instance whose flush raises (keyed by its filename, in pop order), retains
the cache entries of the raising instances, leaves no entry for the
succeeding ones, and does not touch unrelated paths. -/
lemma flushBufferAux_spec {Doc : Type} (env : Env Doc) (l : List (Collection Doc)) :
    ∀ (cache : Cache) (syncs0 : List Doc) (issues0 : List (String × FlushError)),
    (∀ c ∈ l, c.isBuffered = false) →
    List.Pairwise (fun a b : Collection Doc => a.filename ≠ b.filename) l →
    (∀ c ∈ l, ∀ kv ∈ issues0, kv.1 ≠ c.filename) →
    (flushBufferAux env l cache syncs0 issues0).2.2 =
        issues0 ++ l.filterMap
          (fun c => (flushIssue env cache c).map (fun err => (c.filename, err))) ∧
    (∀ c ∈ l, ∀ err, flushIssue env cache c = some err →
        (flushBufferAux env l cache syncs0 issues0).1 c.filename = cache c.filename) ∧
    (∀ c ∈ l, flushIssue env cache c = none →
        (flushBufferAux env l cache syncs0 issues0).1 c.filename = none) ∧
    (∀ p : String, (∀ c ∈ l, c.filename ≠ p) →
        (flushBufferAux env l cache syncs0 issues0).1 p = cache p) := by
  induction l with
  | nil =>
    intro cache syncs0 issues0 _ _ _
    refine ⟨by simp [flushBufferAux], ?_, ?_, ?_⟩
    · intro x hx
      cases hx
    · intro x hx
      cases hx
    · intro p _
      rfl
  | cons c rest ih =>
    intro cache syncs0 issues0 hb hp hkeys
    have hbc : c.isBuffered = false := hb c (List.mem_cons_self c rest)
    obtain ⟨hp1, hp2⟩ := List.pairwise_cons.mp hp
    have hb' : ∀ x ∈ rest, x.isBuffered = false :=
      fun x hx => hb x (List.mem_cons_of_mem c hx)
    have hkc : ∀ kv ∈ issues0, kv.1 ≠ c.filename :=
      fun kv hkv => hkeys c (List.mem_cons_self c rest) kv hkv
    cases he : cache c.filename with
    | none =>
      have hstep := flushOne_no_entry env c cache hbc he
      have hiss : flushIssue env cache c = none := by
        unfold flushIssue
        rw [he]
      have hstep2 : flushBufferAux env (c :: rest) cache syncs0 issues0 =
          flushBufferAux env rest cache (syncs0 ++ []) issues0 := by
        rw [flushBufferAux_cons, hstep]
      obtain ⟨ih1, ih2, ih3, ih4⟩ := ih cache (syncs0 ++ []) issues0 hb' hp2
        (fun x hx kv hkv => hkeys x (List.mem_cons_of_mem c hx) kv hkv)
      refine ⟨?_, ?_, ?_, ?_⟩
      · rw [hstep2, ih1]
        simp [List.filterMap_cons, hiss]
      · intro x hx err hxe
        rcases List.mem_cons.mp hx with rfl | hx'
        · rw [hiss] at hxe
          cases hxe
        · rw [hstep2]
          exact ih2 x hx' err hxe
      · intro x hx hxe
        rcases List.mem_cons.mp hx with rfl | hx'
        · rw [hstep2]
          exact (ih4 x.filename (fun y hy => (hp1 y hy).symm)).trans he
        · rw [hstep2]
          exact ih3 x hx' hxe
      · intro p hpall
        rw [hstep2]
        exact ih4 p (fun y hy => hpall y (List.mem_cons_of_mem c hy))
    | some e =>
      cases hm : getFileMetadata (env.fs c.filename) with
      | error n =>
        have hstep := flushOne_os_error env c cache e n hbc he hm
        have hiss : flushIssue env cache c = some (.osError n) := by
          unfold flushIssue
          rw [he, hm]
        have hstep2 : flushBufferAux env (c :: rest) cache syncs0 issues0 =
            flushBufferAux env rest cache (syncs0 ++ [])
              (dictSet issues0 c.filename (FlushError.osError n)) := by
          rw [flushBufferAux_cons, hstep]
        rw [dictSet_fresh issues0 c.filename (FlushError.osError n) hkc] at hstep2
        have hkeys' : ∀ x ∈ rest, ∀ kv ∈ issues0 ++ [(c.filename, FlushError.osError n)],
            kv.1 ≠ x.filename := by
          intro x hx kv hkv
          rcases List.mem_append.mp hkv with h1 | h2
          · exact hkeys x (List.mem_cons_of_mem c hx) kv h1
          · have hkv2 : kv = (c.filename, FlushError.osError n) := by
              simpa using h2
            rw [hkv2]
            exact hp1 x hx
        obtain ⟨ih1, ih2, ih3, ih4⟩ := ih cache (syncs0 ++ [])
          (issues0 ++ [(c.filename, FlushError.osError n)]) hb' hp2 hkeys'
        refine ⟨?_, ?_, ?_, ?_⟩
        · rw [hstep2, ih1]
          simp [List.filterMap_cons, hiss, List.append_assoc]
        · intro x hx err hxe
          rcases List.mem_cons.mp hx with rfl | hx'
          · rw [hstep2]
            exact ih4 x.filename (fun y hy => (hp1 y hy).symm)
          · rw [hstep2]
            exact ih2 x hx' err hxe
        · intro x hx hxe
          rcases List.mem_cons.mp hx with rfl | hx'
          · rw [hiss] at hxe
            cases hxe
          · rw [hstep2]
            exact ih3 x hx' hxe
        · intro p hpall
          rw [hstep2]
          exact ih4 p (fun y hy => hpall y (List.mem_cons_of_mem c hy))
      | ok md =>
        by_cases hmd : e.metadata = md
        · have hstep := flushOne_meta_match env c cache e md hbc he hm hmd
          have hiss : flushIssue env cache c = none := by
            unfold flushIssue
            rw [he, hm]
            simp [hmd]
          have hstep2 : flushBufferAux env (c :: rest) cache syncs0 issues0 =
              flushBufferAux env rest (cacheDel cache c.filename)
                (syncs0 ++ [env.deserialize e.contents]) issues0 := by
            rw [flushBufferAux_cons, hstep]
          have hcong : ∀ x ∈ rest, (cacheDel cache c.filename) x.filename = cache x.filename :=
            fun x hx => cacheDel_ne cache c.filename x.filename (hp1 x hx).symm
          have hFcong : ∀ x ∈ rest,
              flushIssue env (cacheDel cache c.filename) x = flushIssue env cache x :=
            fun x hx => flushIssue_congr env (cacheDel cache c.filename) cache x (hcong x hx)
          obtain ⟨ih1, ih2, ih3, ih4⟩ := ih (cacheDel cache c.filename)
            (syncs0 ++ [env.deserialize e.contents]) issues0 hb' hp2
            (fun x hx kv hkv => hkeys x (List.mem_cons_of_mem c hx) kv hkv)
          refine ⟨?_, ?_, ?_, ?_⟩
          · rw [hstep2, ih1,
              List.filterMap_congr (fun x hx => by rw [hFcong x hx])]
            simp [List.filterMap_cons, hiss]
          · intro x hx err hxe
            rcases List.mem_cons.mp hx with rfl | hx'
            · rw [hiss] at hxe
              cases hxe
            · rw [hstep2]
              exact (ih2 x hx' err (by rw [hFcong x hx']; exact hxe)).trans (hcong x hx')
          · intro x hx hxe
            rcases List.mem_cons.mp hx with rfl | hx'
            · rw [hstep2]
              exact (ih4 x.filename (fun y hy => (hp1 y hy).symm)).trans
                (cacheDel_self cache x.filename)
            · rw [hstep2]
              exact ih3 x hx' (by rw [hFcong x hx']; exact hxe)
          · intro p hpall
            rw [hstep2]
            exact (ih4 p (fun y hy => hpall y (List.mem_cons_of_mem c hy))).trans
              (cacheDel_ne cache c.filename p (hpall c (List.mem_cons_self c rest)).symm)
        · have hstep := flushOne_meta_conflict env c cache e md hbc he hm hmd
          have hiss : flushIssue env cache c = some (.metadataError c.filename) := by
            unfold flushIssue
            rw [he, hm]
            simp [hmd]
          have hstep2 : flushBufferAux env (c :: rest) cache syncs0 issues0 =
              flushBufferAux env rest cache (syncs0 ++ [])
                (dictSet issues0 c.filename (FlushError.metadataError c.filename)) := by
            rw [flushBufferAux_cons, hstep]
          rw [dictSet_fresh issues0 c.filename (FlushError.metadataError c.filename) hkc]
            at hstep2
          have hkeys' : ∀ x ∈ rest,
              ∀ kv ∈ issues0 ++ [(c.filename, FlushError.metadataError c.filename)],
              kv.1 ≠ x.filename := by
            intro x hx kv hkv
            rcases List.mem_append.mp hkv with h1 | h2
            · exact hkeys x (List.mem_cons_of_mem c hx) kv h1
            · have hkv2 : kv = (c.filename, FlushError.metadataError c.filename) := by
                simpa using h2
              rw [hkv2]
              exact hp1 x hx
          obtain ⟨ih1, ih2, ih3, ih4⟩ := ih cache (syncs0 ++ [])
            (issues0 ++ [(c.filename, FlushError.metadataError c.filename)]) hb' hp2 hkeys'
          refine ⟨?_, ?_, ?_, ?_⟩
          · rw [hstep2, ih1]
            simp [List.filterMap_cons, hiss, List.append_assoc]
          · intro x hx err hxe
            rcases List.mem_cons.mp hx with rfl | hx'
            · rw [hstep2]
              exact ih4 x.filename (fun y hy => (hp1 y hy).symm)
            · rw [hstep2]
              exact ih2 x hx' err hxe
          · intro x hx hxe
            rcases List.mem_cons.mp hx with rfl | hx'
            · rw [hiss] at hxe
              cases hxe
            · rw [hstep2]
              exact ih3 x hx' hxe
          · intro p hpall
            rw [hstep2]
            exact ih4 p (fun y hy => hpall y (List.mem_cons_of_mem c hy))

/-! Claim theorems. -/

/-- Claim C5: the metadata probe returns the (size, mtime) pair of the file
when it exists, returns absent exactly when the path does not exist (errno
ENOENT), and propagates any other I/O failure unmodified instead of
converting it to an absent result or a conflict. -/
theorem getFileMetadata_spec (r : StatResult) :
    (∀ size mtime, r = .ok size mtime → getFileMetadata r = .ok (some (size, mtime))) ∧
    (getFileMetadata r = .ok none ↔ r = .err ENOENT) ∧
    (∀ n, r = .err n → n ≠ ENOENT → getFileMetadata r = .error n) := by
  refine ⟨?_, ?_, ?_⟩
  · intro size mtime h
    subst h
    rfl
  · cases r with
    | ok size mtime => simp [getFileMetadata]
    | err n =>
      by_cases hn : n = ENOENT
      · subst hn
        simp [getFileMetadata]
      · simp [getFileMetadata, hn]
  · intro n h hn
    subst h
    simp [getFileMetadata, hn]

/-- Witness for C5 at concrete probes: an existing file, a missing file
(errno 2 = ENOENT), and a permission failure (errno 13 = EACCES). -/
theorem getFileMetadata_spec_witness :
    getFileMetadata (.ok 3 7) = .ok (some (3, 7)) ∧
    getFileMetadata (.err 2) = .ok none ∧
    getFileMetadata (.err 13) = .error 13 :=
  ⟨(getFileMetadata_spec (.ok 3 7)).1 3 7 rfl,
   (getFileMetadata_spec (.err 2)).2.1.mpr rfl,
   (getFileMetadata_spec (.err 13)).2.2 13 rfl (by decide)⟩

/-- Claim C7: for an instance still inside a buffered scope (_is_buffered
set), _flush is a no-op: no durable commit, no cache read or eviction, all
state unchanged. -/
theorem flushOne_still_buffered {Doc : Type} (env : Env Doc) (c : Collection Doc)
    (cache : Cache) (hb : c.isBuffered = true) :
    flushOne env c cache = ⟨c, cache, [], none⟩ :=
  flushOne_buffered env c cache hb

/-- Witness for C7: a buffered instance on a.json is left untouched together
with the (empty) cache. -/
theorem flushOne_still_buffered_witness :
    flushOne envW cBufW cacheEmptyW = ⟨cBufW, cacheEmptyW, [], none⟩ :=
  flushOne_still_buffered envW cBufW cacheEmptyW rfl

/-- Claim C3: when the current-state digest differs from the baseline hash
and the freshly probed metadata differs from the baseline metadata, _flush
raises MetadataError naming the path, performs no durable commit, and leaves
the cache entry in place. -/
theorem flushOne_conflict_raises {Doc : Type} (env : Env Doc) (c : Collection Doc)
    (cache : Cache) (e : CacheEntry) (md : Option (Nat × Nat))
    (hb : c.isBuffered = false)
    (he : cache c.filename = some e)
    (hm : getFileMetadata (env.fs c.filename) = .ok md)
    (hdigest : env.hashFn (env.serialize c.data) ≠ e.hash)
    (hmeta : e.metadata ≠ md) :
    flushOne env c cache = ⟨c, cache, [], some (.metadataError c.filename)⟩ :=
  flushOne_meta_conflict env c cache e md hb he hm hmeta

/-- Witness for C3: the stale a.json entry (baseline metadata (9, 9), hash
stale) conflicts with the probe (3, 3) while the current digest d2 differs
from the baseline; the error names a.json, the cache is unchanged and no
sync is recorded. -/
theorem flushOne_conflict_raises_witness :
    flushOne envW cConfW cacheConfW =
      ⟨cConfW, cacheConfW, [], some (.metadataError "a.json")⟩ :=
  flushOne_conflict_raises envW cConfW cacheConfW eStaleW (some (3, 3))
    rfl rfl rfl (by decide) (by decide)

/-- Claim C10: whenever _flush raises MetadataError, neither the in-memory
document nor the cache is modified and no durable commit happened: the
decode of the cached contents into _data only runs after the metadata
comparison succeeds. -/
theorem flushOne_conflict_no_mutation {Doc : Type} (env : Env Doc)
    (c : Collection Doc) (cache : Cache) (p : String)
    (herr : (flushOne env c cache).error = some (.metadataError p)) :
    (flushOne env c cache).collection = c ∧
    (flushOne env c cache).cache = cache ∧
    (flushOne env c cache).syncs = [] := by
  by_cases hb : c.isBuffered = true
  · rw [flushOne_buffered env c cache hb] at herr
    simp at herr
  · rw [Bool.not_eq_true] at hb
    cases hcache : cache c.filename with
    | none =>
      rw [flushOne_no_entry env c cache hb hcache] at herr
      simp at herr
    | some e =>
      cases hm : getFileMetadata (env.fs c.filename) with
      | error n =>
        rw [flushOne_os_error env c cache e n hb hcache hm] at herr
        simp at herr
      | ok md =>
        by_cases hmeta : e.metadata = md
        · rw [flushOne_meta_match env c cache e md hb hcache hm hmeta] at herr
          simp at herr
        · rw [flushOne_meta_conflict env c cache e md hb hcache hm hmeta]
          exact ⟨rfl, rfl, rfl⟩

/-- Witness for C10 at the concrete conflict on a.json. -/
theorem flushOne_conflict_no_mutation_witness :
    (flushOne envW cConfW cacheConfW).collection = cConfW ∧
    (flushOne envW cConfW cacheConfW).cache = cacheConfW ∧
    (flushOne envW cConfW cacheConfW).syncs = [] :=
  flushOne_conflict_no_mutation envW cConfW cacheConfW "a.json" (by decide)

/-- Claim C6: _sync_buffer requires an existing cache entry for the path
(failing fast when there is none rather than creating one); when the entry
exists it overwrites only its contents with the freshly serialized state,
leaving the entry's hash and metadata and every other path's entry
unchanged. -/
theorem syncBuffer_spec {Doc : Type} (env : Env Doc) (c : Collection Doc) (cache : Cache) :
    (cache c.filename = none → syncBuffer env c cache = none) ∧
    (∀ e, cache c.filename = some e →
      ∃ g, syncBuffer env c cache = some g ∧
        g c.filename = some ⟨env.serialize c.data, e.hash, e.metadata⟩ ∧
        ∀ p, p ≠ c.filename → g p = cache p) := by
  constructor
  · intro h
    unfold syncBuffer
    rw [h]
  · intro e he
    refine ⟨cacheSet cache c.filename ⟨env.serialize c.data, e.hash, e.metadata⟩, ?_, ?_, ?_⟩
    · unfold syncBuffer
      rw [he]
    · simp [cacheSet]
    · intro p hp
      simp [cacheSet, hp]

/-- Witness for C6: storing d2 over the stale a.json entry keeps its hash
stale and metadata (9, 9) and leaves b.json alone; storing on c.json, which
has no entry, fails fast. -/
theorem syncBuffer_spec_witness :
    syncBuffer envW cMissW cacheEmptyW = none ∧
    ∃ g, syncBuffer envW cConfW cacheConfW = some g ∧
      g "a.json" = some ⟨"d2", "stale", some (9, 9)⟩ ∧
      ∀ p, p ≠ "a.json" → g p = cacheConfW p :=
  ⟨(syncBuffer_spec envW cMissW cacheEmptyW).1 rfl,
   (syncBuffer_spec envW cConfW cacheConfW).2 eStaleW rfl⟩

/-- Claim C8: a buffered load on a path with an existing cache entry returns
the decoded cached contents without probing the file (the result is the same
under any filesystem), without modifying the cache and without appending to
the registry; an instance is appended exactly once, at the first load that
finds no entry, and a second instance sharing the path is never separately
registered. -/
theorem loadBuffer_registry_once {Doc : Type} (env : Env Doc)
    (c : Collection Doc) (cache : Cache) (registry : List (Collection Doc)) :
    (∀ e, cache c.filename = some e →
      ∀ g : String → StatResult,
        loadBuffer ⟨env.serialize, env.deserialize, env.hashFn, g⟩ c cache registry =
          .ok (env.deserialize e.contents, cache, registry)) ∧
    (∀ md, cache c.filename = none →
      getFileMetadata (env.fs c.filename) = .ok md →
      loadBuffer env c cache registry =
        .ok (env.deserialize (env.serialize c.data),
             cacheSet cache c.filename
               ⟨env.serialize c.data, env.hashFn (env.serialize c.data), md⟩,
             registry ++ [c]) ∧
      (∀ c2 : Collection Doc, c2.filename = c.filename →
        ∀ reg2 : List (Collection Doc),
          loadBuffer env c2
            (cacheSet cache c.filename
              ⟨env.serialize c.data, env.hashFn (env.serialize c.data), md⟩) reg2 =
            .ok (env.deserialize (env.serialize c.data),
                 cacheSet cache c.filename
                   ⟨env.serialize c.data, env.hashFn (env.serialize c.data), md⟩,
                 reg2))) := by
  constructor
  · intro e he g
    unfold loadBuffer
    rw [he]
  · intro md hnone hm
    constructor
    · unfold loadBuffer
      rw [hnone, hm]
    · intro c2 hc2 reg2
      unfold loadBuffer
      rw [hc2]
      simp [cacheSet]

/-- Witness for C8: the first load on b.json creates the baseline entry and
registers the instance; a second instance on the same path (with different
in-memory data d2) reads the cached d5 and is not registered; a cache hit on
a.json leaves cache and registry unchanged. -/
theorem loadBuffer_registry_once_witness :
    loadBuffer envW cLoadW cacheEmptyW [] =
      .ok ("d5", cacheSet cacheEmptyW "b.json" ⟨"d5", "d5", some (5, 5)⟩, [cLoadW]) ∧
    loadBuffer envW cConfBW (cacheSet cacheEmptyW "b.json" ⟨"d5", "d5", some (5, 5)⟩) [] =
      .ok ("d5", cacheSet cacheEmptyW "b.json" ⟨"d5", "d5", some (5, 5)⟩, []) ∧
    loadBuffer envW cConfW cacheConfW [cLoadW] = .ok ("d9", cacheConfW, [cLoadW]) :=
  ⟨((loadBuffer_registry_once envW cLoadW cacheEmptyW []).2 (some (5, 5)) rfl rfl).1,
   ((loadBuffer_registry_once envW cLoadW cacheEmptyW []).2 (some (5, 5)) rfl rfl).2
     cConfBW rfl [],
   (loadBuffer_registry_once envW cConfW cacheConfW [cLoadW]).1 eStaleW rfl envW.fs⟩

/-- Claim C1 is violated by the code (code bug): with the digest of the
current state equal to the baseline hash recorded at first load and the file
unchanged, _flush still performs a durable commit. The source compares the
md5 hexdigest (a Python str) against the cached contents (a Python bytes),
which are never equal, so the skip-write branch its own comment describes is
unreachable. The entry is nevertheless evicted. -/
theorem flushOne_digest_equal_still_writes :
    envW.hashFn (envW.serialize cFlushW.data) = eCleanW.hash ∧
    cacheCleanW cFlushW.filename = some eCleanW ∧
    getFileMetadata (envW.fs cFlushW.filename) = .ok eCleanW.metadata ∧
    (flushOne envW cFlushW cacheCleanW).syncs = [cFlushW.data] ∧
    (flushOne envW cFlushW cacheCleanW).cache cFlushW.filename = none := by
  refine ⟨rfl, rfl, rfl, ?_, ?_⟩ <;> decide

/-- Claim C2 is violated by the code (code bug): a buffered load followed by
a flush with no intervening mutation (the serialized state at flush time is
exactly the blob serialized at load) still invokes the durable commit once;
the cache entry is removed as claimed. -/
theorem load_then_flush_still_writes :
    loadBuffer envW cLoadW cacheEmptyW [] = .ok ("d5", cacheAfterLoadW, [cLoadW]) ∧
    envW.serialize cFlush2W.data = ("d5" : String) ∧
    envW.hashFn (envW.serialize cFlush2W.data) = ("d5" : String) ∧
    (flushOne envW cFlush2W cacheAfterLoadW).syncs = [("d5" : String)] ∧
    (flushOne envW cFlush2W cacheAfterLoadW).cache "b.json" = none := by
  refine ⟨rfl, rfl, rfl, ?_, ?_⟩ <;> decide

/-- Claim C4: flush-all drains the registry until it is empty, invoking
flush-one per instance; OSError and MetadataError are caught per instance
rather than aborting the drain, accumulated into a mapping from file path to
the error raised there, and that mapping is returned (empty when every
per-instance flush succeeded); raising instances keep their cache entries
while the others end with no entry. -/
theorem flushBuffer_partial_failure {Doc : Type} (env : Env Doc) (cache : Cache)
    (registry : List (Collection Doc))
    (hb : ∀ c ∈ registry, c.isBuffered = false)
    (hp : List.Pairwise (fun a b : Collection Doc => a.filename ≠ b.filename) registry) :
    (flushBuffer env cache registry).registry = [] ∧
    (flushBuffer env cache registry).issues =
      registry.reverse.filterMap
        (fun c => (flushIssue env cache c).map (fun err => (c.filename, err))) ∧
    ((∀ c ∈ registry, flushIssue env cache c = none) →
      (flushBuffer env cache registry).issues = []) ∧
    (∀ c ∈ registry, ∀ err, flushIssue env cache c = some err →
      (flushBuffer env cache registry).cache c.filename = cache c.filename) ∧
    (∀ c ∈ registry, flushIssue env cache c = none →
      (flushBuffer env cache registry).cache c.filename = none) := by
  have hb' : ∀ c ∈ registry.reverse, c.isBuffered = false :=
    fun c hc => hb c (List.mem_reverse.mp hc)
  have hp' : List.Pairwise (fun a b : Collection Doc => a.filename ≠ b.filename)
      registry.reverse := by
    rw [List.pairwise_reverse]
    exact hp.imp Ne.symm
  have hkeys' : ∀ c ∈ registry.reverse, ∀ kv ∈ ([] : List (String × FlushError)),
      kv.1 ≠ c.filename := by
    intro c _ kv hkv
    cases hkv
  obtain ⟨h1, h2, h3, h4⟩ :=
    flushBufferAux_spec env registry.reverse cache [] [] hb' hp' hkeys'
  refine ⟨rfl, ?_, ?_, ?_, ?_⟩
  · show (flushBufferAux env registry.reverse cache [] []).2.2 = _
    rw [h1]
    exact List.nil_append _
  · intro hall
    have hnil : registry.reverse.filterMap
        (fun c => (flushIssue env cache c).map (fun err => (c.filename, err))) = [] := by
      rw [List.filterMap_eq_nil_iff]
      intro c hc
      simp [hall c (List.mem_reverse.mp hc)]
    show (flushBufferAux env registry.reverse cache [] []).2.2 = []
    rw [h1, hnil]
    rfl
  · intro c hc err hce
    show (flushBufferAux env registry.reverse cache [] []).1 c.filename = cache c.filename
    exact h2 c (List.mem_reverse.mpr hc) err hce
  · intro c hc hce
    show (flushBufferAux env registry.reverse cache [] []).1 c.filename = none
    exact h3 c (List.mem_reverse.mpr hc) hce

/-- Witness for C4: two registered instances, a clean one on a.json and a
conflicted one on b.json; the call returns the single-conflict mapping,
evicts a.json, and keeps the stale b.json entry. -/
theorem flushBuffer_partial_failure_witness :
    (flushBuffer envW cacheTwoW [cFlushW, cConfBW]).registry = [] ∧
    (flushBuffer envW cacheTwoW [cFlushW, cConfBW]).issues =
      [("b.json", FlushError.metadataError "b.json")] ∧
    (flushBuffer envW cacheTwoW [cFlushW, cConfBW]).cache "a.json" = none ∧
    (flushBuffer envW cacheTwoW [cFlushW, cConfBW]).cache "b.json" = some eStaleBW := by
  obtain ⟨h1, h2, h3, h4, h5⟩ := flushBuffer_partial_failure envW cacheTwoW
    [cFlushW, cConfBW] (by decide) (by decide)
  refine ⟨h1, h2.trans (by decide), ?_, ?_⟩
  · exact h5 cFlushW (by decide) (by decide)
  · exact (h4 cConfBW (by decide) (FlushError.metadataError "b.json") (by decide)).trans
      (by decide)

/-- Claim C9: an instance is popped from the registry before its flush is
attempted, so a flush that raises MetadataError leaves its entry cached but
the instance deregistered: a second _flush_buffer call returns an empty
mapping and changes nothing, even though the conflicted entry is still
present. -/
theorem flushBuffer_no_retry {Doc : Type} (env : Env Doc) (cache : Cache)
    (c : Collection Doc) (e : CacheEntry) (md : Option (Nat × Nat))
    (hb : c.isBuffered = false)
    (he : cache c.filename = some e)
    (hm : getFileMetadata (env.fs c.filename) = .ok md)
    (hmeta : e.metadata ≠ md) :
    (flushBuffer env cache [c]).registry = [] ∧
    (flushBuffer env cache [c]).issues = [(c.filename, .metadataError c.filename)] ∧
    (flushBuffer env cache [c]).cache c.filename = some e ∧
    flushBuffer env (flushBuffer env cache [c]).cache (flushBuffer env cache [c]).registry =
      ⟨(flushBuffer env cache [c]).cache, [], [], []⟩ := by
  have hstep := flushOne_meta_conflict env c cache e md hb he hm hmeta
  have key : flushBufferAux env [c] cache [] [] =
      (cache, [], [(c.filename, FlushError.metadataError c.filename)]) := by
    rw [flushBufferAux_cons, hstep]
    rfl
  have hfb : flushBuffer env cache [c] =
      ⟨cache, [], [], [(c.filename, FlushError.metadataError c.filename)]⟩ := by
    unfold flushBuffer
    rw [show ([c] : List (Collection Doc)).reverse = [c] from rfl, key]
  rw [hfb]
  exact ⟨rfl, rfl, he, rfl⟩

/-- Witness for C9: after the conflicted flush on a.json the stale entry is
still cached, yet a second flush-all returns an empty mapping and changes
nothing. -/
theorem flushBuffer_no_retry_witness :
    (flushBuffer envW cacheConfW [cConfW]).registry = [] ∧
    (flushBuffer envW cacheConfW [cConfW]).issues =
      [("a.json", FlushError.metadataError "a.json")] ∧
    (flushBuffer envW cacheConfW [cConfW]).cache "a.json" = some eStaleW ∧
    flushBuffer envW (flushBuffer envW cacheConfW [cConfW]).cache
        (flushBuffer envW cacheConfW [cConfW]).registry =
      ⟨(flushBuffer envW cacheConfW [cConfW]).cache, [], [], []⟩ :=
  flushBuffer_no_retry envW cacheConfW cConfW eStaleW (some (3, 3))
    rfl rfl rfl (by decide)

end Signac
